import Mathlib

/-!
Shallow embedding of the EventSphere backend (FastAPI + SQLAlchemy routes)
and proofs about its authorization, upsert and comment-thread logic.

Each route handler is translated into a pure Lean function over an explicit
store. A handler that raises HTTPException(code) is modelled as returning
an error of the matching taxonomy class; a successful commit returns the
new store. An error return models rollback: the store is unchanged.
-/

namespace EventSphere

/-- Error taxonomy. Constructors correspond to the HTTP status codes the
route handlers raise via HTTPException. -/
inductive ApiError
  | badRequest
  | unauthorized
  | forbidden
  | notFound
  | conflict
  | internal
deriving DecidableEq, Repr

/-- The HTTP status code attached to each error class. -/
def ApiError.statusCode : ApiError → Nat
  | .badRequest => 400
  | .unauthorized => 401
  | .forbidden => 403
  | .notFound => 404
  | .conflict => 409
  | .internal => 500

/-- Embeds app/models/user.py: the User row (columns relevant to the
authorization logic; hashed_password and timestamps omitted as they play
no role in any gate). -/
structure User where
  id : Nat
  email : String
  is_active : Bool
  role : String
deriving DecidableEq, Repr

/-- Embeds get_current_active_user in app/auth/dependencies.py: the input
is the user already resolved from the token (get_current_user); the gate
raises HTTPException(400, detail Inactive user) when is_active is false. -/
def get_current_active_user (current_user : User) : Except ApiError User :=
  if !current_user.is_active then .error .badRequest
  else .ok current_user

/-- Embeds get_current_admin_user in app/auth/dependencies.py: the active
gate followed by a role check raising HTTPException(403) for non-admins. -/
def get_current_admin_user (u : User) : Except ApiError User := do
  let current_user ← get_current_active_user u
  if current_user.role ≠ "admin" then .error .forbidden
  else .ok current_user

/-- Embeds get_current_organizer_user in app/auth/dependencies.py: the
active gate followed by a check that the role is organizer or admin,
raising HTTPException(403) otherwise. -/
def get_current_organizer_user (u : User) : Except ApiError User := do
  let current_user ← get_current_active_user u
  if ¬ (current_user.role = "organizer" ∨ current_user.role = "admin") then
    .error .forbidden
  else .ok current_user

/-! ### Subscriptions (app/routes/subscriptions.py, app/models/subscription.py) -/

/-- Embeds app/models/subscription.py: the Subscription row. -/
structure Subscription where
  id : Nat
  follower_id : Nat
  followee_id : Nat
deriving DecidableEq, Repr

/-- Store backing the subscription routes: the users table, the
subscriptions table and the next autoincrement id. -/
structure SubStore where
  users : List User
  subs : List Subscription
  nextId : Nat
deriving DecidableEq, Repr

/-- Lookup db.get(User, user_id). -/
def SubStore.getUser (s : SubStore) (user_id : Nat) : Option User :=
  s.users.find? (fun u => u.id == user_id)

/-- The commit-time database constraints on an inserted subscription row:
both foreign keys must resolve, the (follower_id, followee_id) pair must be
unique (uq_follower_followee) and the check constraint
cc_user_cannot_follow_self must hold. A violation surfaces as
IntegrityError, which the handlers translate to HTTP 409. -/
def subInsertOk (s : SubStore) (follower_id followee_id : Nat) : Bool :=
  (s.users.any (fun u => u.id == follower_id)) &&
  (s.users.any (fun u => u.id == followee_id)) &&
  !(s.subs.any (fun x => x.follower_id == follower_id && x.followee_id == followee_id)) &&
  follower_id != followee_id

/-- Embeds subscribe_to_user in app/routes/subscriptions.py: active gate,
self-subscription check (400), followee existence check (404), duplicate
pre-check (409), then insert with commit translating IntegrityError
to 409. -/
def subscribe_to_user (s : SubStore) (u : User) (followee_id : Nat) :
    Except ApiError (SubStore × Subscription) := do
  let current_user ← get_current_active_user u
  if current_user.id = followee_id then
    .error .badRequest
  else
    match s.getUser followee_id with
    | none => .error .notFound
    | some _ =>
      if s.subs.any (fun x => x.follower_id == current_user.id && x.followee_id == followee_id) then
        .error .conflict
      else
        let db_subscription : Subscription :=
          { id := s.nextId, follower_id := current_user.id, followee_id := followee_id }
        if subInsertOk s current_user.id followee_id then
          .ok ({ s with subs := s.subs ++ [db_subscription], nextId := s.nextId + 1 },
               db_subscription)
        else
          .error .conflict

/-- Embeds unsubscribe_from_user in app/routes/subscriptions.py: active
gate, then lookup of the (follower, followee) row; when absent the handler
returns 204 without touching the store; when present the row is deleted. -/
def unsubscribe_from_user (s : SubStore) (u : User) (followee_id : Nat) :
    Except ApiError SubStore := do
  let current_user ← get_current_active_user u
  match s.subs.find? (fun x => x.follower_id == current_user.id && x.followee_id == followee_id) with
  | none => .ok s
  | some db_subscription =>
      .ok { s with subs := s.subs.filter (fun x => x.id != db_subscription.id) }

/-- Payload of the admin subscription route (SubscriptionCreateExplicitSchema). -/
structure SubscriptionCreateExplicitSchema where
  follower_id : Nat
  followee_id : Nat
deriving DecidableEq, Repr

/-- Embeds create_subscription_by_admin in app/routes/subscriptions.py:
admin gate (route dependency), self-subscription check (400), then a
direct insert with NO existence check on either user; any IntegrityError
at commit (missing foreign key, duplicate pair) becomes HTTP 409. -/
def create_subscription_by_admin (s : SubStore) (u : User)
    (subscription_data : SubscriptionCreateExplicitSchema) :
    Except ApiError (SubStore × Subscription) := do
  let _ ← get_current_admin_user u
  if subscription_data.follower_id = subscription_data.followee_id then
    .error .badRequest
  else
    let db_subscription : Subscription :=
      { id := s.nextId, follower_id := subscription_data.follower_id,
        followee_id := subscription_data.followee_id }
    if subInsertOk s subscription_data.follower_id subscription_data.followee_id then
      .ok ({ s with subs := s.subs ++ [db_subscription], nextId := s.nextId + 1 },
           db_subscription)
    else
      .error .conflict

/-! ### Events (app/routes/events.py, app/models/event.py) -/

/-- Embeds app/models/event.py: the Event row (event_date and created_at
modelled as opaque Nat timestamps). -/
structure Event where
  id : Nat
  title : String
  author_id : Nat
  description : Option String
  event_date : Nat
  category_id : Nat
deriving DecidableEq, Repr

/-- Payload of event creation (EventCreateSchema in app/schemas/event.py).
Note that the schema DOES carry an author_id field supplied by the client. -/
structure EventCreateSchema where
  title : String
  description : Option String
  event_date : Nat
  category_id : Nat
  author_id : Nat
deriving DecidableEq, Repr

/-- Store backing the event routes: users, categories (ids) and events. -/
structure EvStore where
  users : List User
  categories : List Nat
  events : List Event
  nextId : Nat
deriving DecidableEq, Repr

/-- Commit-time foreign keys of an Event insert: author_id must reference
a user and category_id a category; a violation surfaces as IntegrityError,
translated to HTTP 409 by the handler. -/
def eventInsertOk (s : EvStore) (author_id category_id : Nat) : Bool :=
  (s.users.any (fun u => u.id == author_id)) && (s.categories.any (· == category_id))

/-- Embeds create_event in app/routes/events.py: organizer-or-admin gate,
then an insert whose author_id is current_user.id, ignoring the
author_id supplied in the payload. IntegrityError at commit becomes 409. -/
def create_event (s : EvStore) (u : User) (event_data : EventCreateSchema) :
    Except ApiError (EvStore × Event) := do
  let current_user ← get_current_organizer_user u
  let db_event : Event :=
    { id := s.nextId, title := event_data.title, author_id := current_user.id,
      description := event_data.description, event_date := event_data.event_date,
      category_id := event_data.category_id }
  if eventInsertOk s current_user.id event_data.category_id then
    .ok ({ s with events := s.events ++ [db_event], nextId := s.nextId + 1 }, db_event)
  else
    .error .conflict

/-! ### Users (app/routes/users.py, app/auth/user_crud.py) -/

/-- Payload of PATCH /users/user_id (UserUpdateAdminSchema in
app/schemas/user.py): every field optional, absent fields untouched. -/
structure UserUpdateAdminSchema where
  email : Option String
  name : Option String
  bio : Option String
  is_active : Option Bool
  role : Option String
deriving DecidableEq, Repr

/-- Extended user row used by the user-update model, carrying the two
profile columns the update schema can touch. -/
structure UserRow where
  id : Nat
  email : String
  name : Option String
  bio : Option String
  is_active : Bool
  role : String
deriving DecidableEq, Repr

/-- Projection of a UserRow to the authorization-relevant User record. -/
def UserRow.principal (u : UserRow) : User :=
  { id := u.id, email := u.email, is_active := u.is_active, role := u.role }

/-- Store backing the user routes. -/
structure UserStore where
  users : List UserRow
deriving DecidableEq, Repr

/-- Lookup get_user_by_id in app/auth/user_crud.py (db.get(User, user_id)). -/
def UserStore.getUserById (s : UserStore) (user_id : Nat) : Option UserRow :=
  s.users.find? (fun u => u.id == user_id)

/-- Lookup get_user_by_email in app/auth/user_crud.py. -/
def UserStore.getUserByEmail (s : UserStore) (email : String) : Option UserRow :=
  s.users.find? (fun u => u.email == email)

/-- Embeds update_existing_user in app/auth/user_crud.py: setattr of every
field present in the payload (model_dump with exclude_unset). -/
def update_existing_user (db_user : UserRow) (user_in : UserUpdateAdminSchema) : UserRow :=
  { db_user with
    email := user_in.email.getD db_user.email,
    name := match user_in.name with | some v => some v | none => db_user.name,
    bio := match user_in.bio with | some v => some v | none => db_user.bio,
    is_active := user_in.is_active.getD db_user.is_active,
    role := user_in.role.getD db_user.role }

/-- Python truthiness of an optional string (an if on a possibly-None
pydantic field): None and the empty string are falsy. -/
def truthyStr : Option String → Bool
  | none => false
  | some v => v ≠ ""

/-- Embeds update_user_endpoint in app/routes/users.py: active gate,
admin-or-self ownership check (403), the non-admin field-level denials on
role and is_active (403), the email duplication pre-check (409), target
lookup (404), then the setattr update with commit translating a unique
email IntegrityError to 409. -/
def update_user_endpoint (s : UserStore) (u : User) (user_id : Nat)
    (user_update_data : UserUpdateAdminSchema) :
    Except ApiError (UserStore × UserRow) := do
  let current_user ← get_current_active_user u
  if current_user.id ≠ user_id ∧ current_user.role ≠ "admin" then
    .error .forbidden
  else if current_user.role ≠ "admin" ∧
      user_update_data.role.any (fun r => r != current_user.role) then
    .error .forbidden
  else if current_user.role ≠ "admin" ∧
      user_update_data.is_active.any (fun b => b != current_user.is_active) then
    .error .forbidden
  else if truthyStr user_update_data.email &&
      (current_user.id == user_id || current_user.role == "admin") &&
      user_update_data.email.any (fun e =>
        match s.getUserByEmail e with
        | some existing => existing.id != user_id
        | none => false) then
    .error .conflict
  else
    match s.getUserById user_id with
    | none => .error .notFound
    | some db_user =>
      let updated_user := update_existing_user db_user user_update_data
      -- commit: the unique index on users.email rejects a duplicate
      if s.users.any (fun v => v.id != user_id && v.email == updated_user.email) then
        .error .conflict
      else
        .ok ({ users := s.users.map (fun v => if v.id == user_id then updated_user else v) },
             updated_user)

/-- Embeds delete_user_endpoint in app/routes/users.py: admin gate (both
as a route dependency and as a handler parameter), then the self-deletion
denial (403) BEFORE the target lookup (404) and the cascade delete. -/
def delete_user_endpoint (s : UserStore) (u : User) (user_id : Nat) :
    Except ApiError UserStore := do
  let current_admin ← get_current_admin_user u
  if current_admin.id = user_id then
    .error .forbidden
  else
    match s.getUserById user_id with
    | none => .error .notFound
    | some _ =>
      .ok { users := s.users.filter (fun v => v.id != user_id) }

/-! ### Categories (app/routes/categories.py, app/models/category.py) -/

/-- Embeds app/models/category.py: the Category row. -/
structure Category where
  id : Nat
  name : String
deriving DecidableEq, Repr

/-- Store backing the category routes. -/
structure CatStore where
  categories : List Category
  events : List Event
deriving DecidableEq, Repr

/-- Error outcomes of the category delete route. The 409 branch carries
associated_events_count, the number the handler embeds in the
HTTPException detail string. -/
inductive CatDelErr
  | gate (e : ApiError)
  | notFound
  | conflict (associated_events_count : Nat)
deriving DecidableEq, Repr

/-- Embeds delete_category_admin in app/routes/categories.py: admin gate
(route dependency), category lookup (404), count of events referencing the
category, a 409 naming that count when it is positive, else the delete. -/
def delete_category_admin (s : CatStore) (u : User) (category_id : Nat) :
    Except CatDelErr CatStore := do
  match get_current_admin_user u with
  | .error e => .error (.gate e)
  | .ok _ =>
    match s.categories.find? (fun c => c.id == category_id) with
    | none => .error .notFound
    | some _ =>
      let associated_events_count := (s.events.filter (fun e => e.category_id == category_id)).length
      if associated_events_count > 0 then
        .error (.conflict associated_events_count)
      else
        .ok { s with categories := s.categories.filter (fun c => c.id != category_id) }

/-! ### Participations (app/routes/participations.py, app/models/participation.py) -/

/-- Embeds Status_Variation in app/models/participation.py. -/
inductive Status_Variation
  | going
  | interested
  | not_going
deriving DecidableEq, Repr

/-- Embeds app/models/participation.py: the Participation row
(joined_at omitted; it plays no role in the upsert logic). -/
structure Participation where
  id : Nat
  user_id : Nat
  event_id : Nat
  status : Status_Variation
deriving DecidableEq, Repr

/-- Store backing the participation routes. -/
structure PartStore where
  users : List Nat
  events : List Nat
  parts : List Participation
  nextId : Nat
deriving DecidableEq, Repr

/-- The create-or-update body shared verbatim by
admin_create_or_update_participation and set_my_participation_status:
select the first row keyed (user_id, event_id); if present mutate its
status in place, else insert a new row; commit translates IntegrityError
(bad foreign key or a violation of unique_user_event) to HTTP 409. -/
def upsertParticipation (s : PartStore) (user_id event_id : Nat)
    (status : Status_Variation) : Except ApiError (PartStore × Participation) :=
  match s.parts.find? (fun p => p.user_id == user_id && p.event_id == event_id) with
  | some db_participation =>
    let updated := { db_participation with status := status }
    .ok ({ s with parts := s.parts.map (fun p => if p.id == db_participation.id then updated else p) },
         updated)
  | none =>
    let db_participation : Participation :=
      { id := s.nextId, user_id := user_id, event_id := event_id, status := status }
    if (s.users.any (· == user_id)) && (s.events.any (· == event_id)) &&
        !(s.parts.any (fun p => p.user_id == user_id && p.event_id == event_id)) then
      .ok ({ s with parts := s.parts ++ [db_participation], nextId := s.nextId + 1 },
           db_participation)
    else
      .error .conflict

/-- Embeds admin_create_or_update_participation in
app/routes/participations.py: admin gate (route dependency) then the
create-or-update body with explicit ids. -/
def admin_create_or_update_participation (s : PartStore) (u : User)
    (user_id event_id : Nat) (status : Status_Variation) :
    Except ApiError (PartStore × Participation) := do
  let _ ← get_current_admin_user u
  upsertParticipation s user_id event_id status

/-- Embeds set_my_participation_status in app/routes/participations.py:
active gate, event existence check (404), then the create-or-update body
keyed by the current user. -/
def set_my_participation_status (s : PartStore) (u : User) (event_id : Nat)
    (status : Status_Variation) : Except ApiError (PartStore × Participation) := do
  let current_user ← get_current_active_user u
  if !(s.events.any (· == event_id)) then
    .error .notFound
  else
    upsertParticipation s current_user.id event_id status

/-! ### Comments (app/routes/comments.py, app/models/comment.py) -/

/-- Embeds app/models/comment.py: the Comment row. reply_count is an Int
so that the defensive clamp max(0, reply_count - 1) of the delete handler
is modelled exactly as written. -/
structure Comment where
  id : Nat
  event_id : Nat
  author_id : Nat
  text : String
  parent_comment_id : Option Nat
  depth : Nat
  reply_count : Int
deriving DecidableEq, Repr

/-- Store backing the comment routes: existing event ids, the comments
table and the next autoincrement id. -/
structure CommentStore where
  events : List Nat
  comments : List Comment
  nextId : Nat
deriving DecidableEq, Repr

/-- Lookup db.get(Comment, cid). -/
def findComment (cs : List Comment) (cid : Nat) : Option Comment :=
  cs.find? (fun c => c.id == cid)

/-- Payload of comment creation (CommentCreateSchema in
app/schemas/comment.py), with author_id bound by the caller: the
authenticated route binds current_user.id, the admin as-author route binds
the payload author_id. -/
structure CommentCreateData where
  text : String
  event_id : Nat
  parent_comment_id : Option Nat
deriving DecidableEq, Repr

/-- The reply branch of the comment-creation body, entered when the
payload carries parent_comment_id = some p. The guard p ≠ 0 is the Python
truthiness of the field (0 is falsy): a truthy parent id is looked up
(404), checked to be on the same event (400) and below the depth cap
(400), then the reply is inserted with depth = parent.depth + 1 while the
parent reply_count is incremented in the same transaction. A falsy-but-
present id 0 skips all parent handling and the insert commits only if its
self foreign key resolves, else IntegrityError becomes HTTP 409. -/
def createWithParent (s : CommentStore) (author_id : Nat)
    (d : CommentCreateData) (p : Nat) : Except ApiError (CommentStore × Comment) :=
  if p ≠ 0 then
    match findComment s.comments p with
    | none => .error .notFound
    | some parent_comment_obj =>
      if parent_comment_obj.event_id ≠ d.event_id then .error .badRequest
      else if parent_comment_obj.depth ≥ 4 then .error .badRequest
      else
        let db_comment : Comment :=
          { id := s.nextId, event_id := d.event_id, author_id := author_id,
            text := d.text, parent_comment_id := some p,
            depth := parent_comment_obj.depth + 1, reply_count := 0 }
        let bumped := s.comments.map (fun c =>
          if c.id == p then { c with reply_count := c.reply_count + 1 } else c)
        .ok ({ s with comments := bumped ++ [db_comment], nextId := s.nextId + 1 },
             db_comment)
  else
    let db_comment : Comment :=
      { id := s.nextId, event_id := d.event_id, author_id := author_id,
        text := d.text, parent_comment_id := some p, depth := 0, reply_count := 0 }
    if (findComment s.comments p).isSome then
      .ok ({ s with comments := s.comments ++ [db_comment], nextId := s.nextId + 1 },
           db_comment)
    else .error .conflict

/-- The comment-creation body shared verbatim by create_comment_or_reply
and create_comment_or_reply_as_author_by_admin: event existence check
(404), then the reply branch when a parent id is present, else a top-level
insert with depth 0. -/
def createCommentCore (s : CommentStore) (author_id : Nat)
    (d : CommentCreateData) : Except ApiError (CommentStore × Comment) :=
  if !(s.events.any (· == d.event_id)) then .error .notFound
  else
    match d.parent_comment_id with
    | some p => createWithParent s author_id d p
    | none =>
      let db_comment : Comment :=
        { id := s.nextId, event_id := d.event_id, author_id := author_id,
          text := d.text, parent_comment_id := none, depth := 0, reply_count := 0 }
      .ok ({ s with comments := s.comments ++ [db_comment], nextId := s.nextId + 1 },
           db_comment)

/-- Embeds create_comment_or_reply in app/routes/comments.py: active gate,
then the creation body with author_id := current_user.id. -/
def create_comment_or_reply (s : CommentStore) (u : User)
    (comment_data : CommentCreateData) : Except ApiError (CommentStore × Comment) := do
  let current_user ← get_current_active_user u
  createCommentCore s current_user.id comment_data

/-- Embeds create_comment_or_reply_as_author_by_admin in
app/routes/comments.py: admin gate (route dependency), then the creation
body with the payload author_id. -/
def create_comment_or_reply_as_author_by_admin (s : CommentStore) (u : User)
    (author_id : Nat) (comment_data : CommentCreateData) :
    Except ApiError (CommentStore × Comment) := do
  let _ ← get_current_admin_user u
  createCommentCore s author_id comment_data

/-- Membership of comment id i in the subtree rooted at root: the chain of
parent_comment_id links starting at i reaches root. This is the set of
rows removed by the ORM cascade (all, delete-orphan on Comment.replies)
when root is deleted. The guard p < i only serves termination; in every
reachable store a parent id is strictly smaller than the child id, so the
guard never cuts a real chain. -/
def inSubtree (cs : List Comment) (root : Nat) (i : Nat) : Bool :=
  if i = root then true
  else
    match findComment cs i with
    | none => false
    | some c =>
      match c.parent_comment_id with
      | none => false
      | some p => if _ : p < i then inSubtree cs root p else false
termination_by i

/-- Embeds delete_own_or_admin_comment in app/routes/comments.py: active
gate, comment lookup (404), author-or-admin check (403), then the delete:
the ORM cascade removes the whole subtree, and when the deleted comment
has a truthy parent id whose row still exists, that parent reply_count is
set to max(0, reply_count - 1) in the same transaction. -/
def delete_own_or_admin_comment (s : CommentStore) (u : User) (comment_id : Nat) :
    Except ApiError CommentStore := do
  let current_user ← get_current_active_user u
  match findComment s.comments comment_id with
  | none => .error .notFound
  | some db_comment_to_delete =>
    let is_author := db_comment_to_delete.author_id == current_user.id
    let is_admin := current_user.role == "admin"
    if !(is_author || is_admin) then .error .forbidden
    else
      let survivors := s.comments.filter (fun x => !(inSubtree s.comments comment_id x.id))
      let cs' :=
        match db_comment_to_delete.parent_comment_id with
        | some pid =>
          -- the guard pid ≠ 0 is the Python truthiness of the field
          if pid ≠ 0 then
            survivors.map (fun y =>
              if y.id == pid then { y with reply_count := max 0 (y.reply_count - 1) } else y)
          else survivors
        | none => survivors
      .ok { s with comments := cs' }

/-- Reachable comment stores: the empty comments table over an arbitrary
set of events, closed under the two creation routes and the delete route
succeeding. Failing calls return an error and leave the store unchanged
(rollback), so they do not generate new states. -/
inductive CommentReach : CommentStore → Prop
  | init (events : List Nat) :
      CommentReach { events := events, comments := [], nextId := 1 }
  | create {s s' : CommentStore} {c : Comment} (u : User) (d : CommentCreateData) :
      CommentReach s → create_comment_or_reply s u d = .ok (s', c) →
      CommentReach s'
  | createAdmin {s s' : CommentStore} {c : Comment} (u : User) (author_id : Nat)
      (d : CommentCreateData) :
      CommentReach s →
      create_comment_or_reply_as_author_by_admin s u author_id d = .ok (s', c) →
      CommentReach s'
  | delete {s s' : CommentStore} (u : User) (comment_id : Nat) :
      CommentReach s → delete_own_or_admin_comment s u comment_id = .ok s' →
      CommentReach s'

/-- Number of rows whose parent_comment_id equals some i. -/
def countChildren (cs : List Comment) (i : Nat) : Nat :=
  (cs.filter (fun x => x.parent_comment_id == some i)).length

/-- A concrete run of the authenticated comment route: starting from a
store holding only event 1, user 10 posts a top-level comment and then
keeps replying to the comment created by the previous step. -/
def chainState : Nat → Except ApiError (CommentStore × Comment)
  | 0 => create_comment_or_reply { events := [1], comments := [], nextId := 1 }
      { id := 10, email := "u", is_active := true, role := "user" }
      { text := "t", event_id := 1, parent_comment_id := none }
  | n + 1 =>
    match chainState n with
    | .ok (s, c) => create_comment_or_reply s
        { id := 10, email := "u", is_active := true, role := "user" }
        { text := "t", event_id := 1, parent_comment_id := some c.id }
    | .error e => .error e

/-- The database invariants of the comments table maintained by the
routes: primary keys are unique, positive and below the autoincrement
counter, every parent link points to an existing strictly older row, and
every stored reply_count equals the number of direct children. -/
structure CommentStoreInv (s : CommentStore) : Prop where
  idNodup : (s.comments.map (·.id)).Nodup
  idPos : ∀ c ∈ s.comments, 1 ≤ c.id
  idLt : ∀ c ∈ s.comments, c.id < s.nextId
  nextPos : 1 ≤ s.nextId
  parentLt : ∀ c ∈ s.comments, ∀ q, c.parent_comment_id = some q → q < c.id
  parentMem : ∀ c ∈ s.comments, ∀ q, c.parent_comment_id = some q →
    ∃ w ∈ s.comments, w.id = q
  counts : ∀ c ∈ s.comments, c.reply_count = (countChildren s.comments c.id : Int)

/-- Row constructor for a freshly inserted comment (reply_count 0). -/
def mkComment (i eid aid : Nat) (txt : String) (pid : Option Nat) (dep : Nat) : Comment :=
  { id := i, event_id := eid, author_id := aid, text := txt,
    parent_comment_id := pid, depth := dep, reply_count := 0 }

/-! ## Theorems -/

/-- Inversion of the active gate: a successful pass returns the same user. -/
theorem get_current_active_user_ok {u v : User}
    (h : get_current_active_user u = .ok v) : v = u ∧ u.is_active = true := by
  unfold get_current_active_user at h
  split at h
  · exact absurd h (by simp)
  · simp_all

/-- Inversion of the organizer gate: a successful pass returns the same user. -/
theorem get_current_organizer_user_ok {u v : User}
    (h : get_current_organizer_user u = .ok v) : v = u := by
  unfold get_current_organizer_user at h
  cases hg : get_current_active_user u with
  | error e => rw [hg] at h; exact absurd h (by simp [Bind.bind, Except.bind])
  | ok w =>
    rw [hg] at h
    simp only [Bind.bind, Except.bind] at h
    split at h
    · exact absurd h (by simp)
    · cases h
      exact (get_current_active_user_ok hg).1

/-- C5 counterexample: the InactiveAccount denial is NOT reported as
Forbidden. A user that authenticates successfully but has is_active false
is rejected by get_current_active_user with HTTP 400 (the InvalidRequest
class), not 403. -/
theorem C5_counterexample :
    get_current_active_user { id := 1, email := "a@b.c", is_active := false, role := "user" }
      = .error .badRequest ∧
    ApiError.badRequest ≠ ApiError.forbidden ∧
    ApiError.badRequest.statusCode = 400 := by
  refine ⟨rfl, by decide, rfl⟩

/-- C5 (amended): for every principal that authenticates successfully but
whose active flag is false, the active gate and hence every operation
gated on it fail with the InvalidRequest error class (HTTP 400, detail
Inactive user), not Forbidden, and no state change occurs (an error return
models rollback: no new store is produced). -/
theorem C5_inactive_bad_request (u : User) (h : u.is_active = false) :
    get_current_active_user u = .error .badRequest ∧
    ApiError.badRequest.statusCode = 400 ∧
    (∀ s fid, subscribe_to_user s u fid = .error .badRequest) ∧
    (∀ s d, create_comment_or_reply s u d = .error .badRequest) ∧
    (∀ s cid, delete_own_or_admin_comment s u cid = .error .badRequest) ∧
    (∀ s eid st, set_my_participation_status s u eid st = .error .badRequest) := by
  refine ⟨?_, rfl, ?_, ?_, ?_, ?_⟩ <;>
    simp [get_current_active_user, subscribe_to_user, create_comment_or_reply,
      delete_own_or_admin_comment, set_my_participation_status, h,
      Bind.bind, Except.bind]

/-- C5 witness: the amended theorem applied to a concrete inactive user. -/
theorem C5_witness :
    get_current_active_user { id := 1, email := "a@b.c", is_active := false, role := "user" }
      = .error .badRequest ∧
    ApiError.badRequest.statusCode = 400 ∧
    (∀ s fid, subscribe_to_user s { id := 1, email := "a@b.c", is_active := false, role := "user" } fid
        = .error .badRequest) ∧
    (∀ s d, create_comment_or_reply s { id := 1, email := "a@b.c", is_active := false, role := "user" } d
        = .error .badRequest) ∧
    (∀ s cid, delete_own_or_admin_comment s { id := 1, email := "a@b.c", is_active := false, role := "user" } cid
        = .error .badRequest) ∧
    (∀ s eid st, set_my_participation_status s { id := 1, email := "a@b.c", is_active := false, role := "user" } eid st
        = .error .badRequest) :=
  C5_inactive_bad_request _ rfl

/-- C9: the admin delete-user route denies self-deletion with Forbidden
before any lookup: for every store (whether or not the target id even
exists) an active admin calling it on their own id gets 403 and no new
store is produced. -/
theorem C9_admin_self_delete (s : UserStore) (u : User)
    (hact : u.is_active = true) (hadm : u.role = "admin") :
    delete_user_endpoint s u u.id = .error .forbidden := by
  simp [delete_user_endpoint, get_current_admin_user, get_current_active_user,
    hact, hadm, Bind.bind, Except.bind]

/-- C9 witness: a concrete admin deleting their own id is denied, on a
store where that id does exist. -/
theorem C9_witness :
    delete_user_endpoint
      { users := [{ id := 3, email := "a@b.c", name := none, bio := none,
                    is_active := true, role := "admin" }] }
      { id := 3, email := "a@b.c", is_active := true, role := "admin" } 3
      = .error .forbidden :=
  C9_admin_self_delete _ _ rfl rfl

/-- C6: subscribing to oneself fails with InvalidRequest (HTTP 400) and
creates no row (no new store is produced), while unsubscribing when no
(follower, followee) row exists succeeds with the store unchanged and no
error. -/
theorem C6_subscribe_rules (s : SubStore) (u : User) (fid : Nat)
    (hact : u.is_active = true) :
    subscribe_to_user s u u.id = .error .badRequest ∧
    (s.subs.find? (fun x => x.follower_id == u.id && x.followee_id == fid) = none →
      unsubscribe_from_user s u fid = .ok s) := by
  constructor
  · simp [subscribe_to_user, get_current_active_user, hact, Bind.bind, Except.bind]
  · intro hnone
    simp [unsubscribe_from_user, get_current_active_user, hact, hnone, Bind.bind, Except.bind]

/-- C6 witness: a concrete user self-subscribing is rejected and a
concrete unsubscribe with no matching row returns the store unchanged. -/
theorem C6_witness :
    subscribe_to_user
      { users := [{ id := 5, email := "e", is_active := true, role := "user" }], subs := [], nextId := 1 }
      { id := 5, email := "e", is_active := true, role := "user" } 5 = .error .badRequest ∧
    unsubscribe_from_user
      { users := [{ id := 5, email := "e", is_active := true, role := "user" }], subs := [], nextId := 1 }
      { id := 5, email := "e", is_active := true, role := "user" } 9 =
      .ok { users := [{ id := 5, email := "e", is_active := true, role := "user" }], subs := [], nextId := 1 } :=
  ⟨(C6_subscribe_rules _ _ 9 rfl).1, (C6_subscribe_rules _ _ 9 rfl).2 rfl⟩

/-- C4: event creation by an active principal whose role is neither
organizer nor admin fails with Forbidden; whenever it succeeds, the
created Event carries author_id equal to the principal id, whatever
author_id the payload supplied. -/
theorem C4_event_creation_gate (s : EvStore) (u : User) (d : EventCreateSchema)
    (hact : u.is_active = true) :
    (u.role ≠ "organizer" → u.role ≠ "admin" →
      create_event s u d = .error .forbidden) ∧
    (∀ s' ev, create_event s u d = .ok (s', ev) → ev.author_id = u.id) := by
  constructor
  · intro h1 h2
    simp [create_event, get_current_organizer_user, get_current_active_user,
      hact, h1, h2, Bind.bind, Except.bind]
  · intro s' ev hok
    unfold create_event at hok
    cases hg : get_current_organizer_user u with
    | error e => rw [hg] at hok; exact absurd hok (by simp [Bind.bind, Except.bind])
    | ok v =>
      rw [hg] at hok
      have hv : v = u := get_current_organizer_user_ok hg
      simp only [Bind.bind, Except.bind] at hok
      split at hok
      · simp only [Except.ok.injEq, Prod.mk.injEq] at hok
        rw [← hok.2, hv]
      · exact absurd hok (by simp)

/-- C4 witness: a concrete active plain user is denied event creation, and
a concrete organizer-created event carries the organizer id 8 as author
even though the payload named author 99. -/
theorem C4_witness :
    create_event { users := [], categories := [], events := [], nextId := 1 }
      { id := 7, email := "x", is_active := true, role := "user" }
      { title := "t", description := none, event_date := 0, category_id := 1, author_id := 99 }
      = .error .forbidden ∧
    (∀ s' ev,
      create_event
        { users := [{ id := 8, email := "o", is_active := true, role := "organizer" }],
          categories := [1], events := [], nextId := 1 }
        { id := 8, email := "o", is_active := true, role := "organizer" }
        { title := "t", description := none, event_date := 0, category_id := 1, author_id := 99 }
        = .ok (s', ev) → ev.author_id = 8) :=
  ⟨(C4_event_creation_gate _ _ _ rfl).1 (by decide) (by decide),
   fun s' ev h => (C4_event_creation_gate _ _ _ rfl).2 s' ev h⟩

/-- C7: deleting an existing category that at least one event references
fails with Conflict carrying the exact count of referencing events (the
count the handler embeds in the HTTP detail), and the category survives
(no new store); with no referencing event the delete succeeds and removes
the category. -/
theorem C7_category_delete_guard (s : CatStore) (u : User) (cid : Nat) (c : Category)
    (hact : u.is_active = true) (hadm : u.role = "admin")
    (hfind : s.categories.find? (fun x => x.id == cid) = some c) :
    (0 < (s.events.filter (fun e => e.category_id == cid)).length →
      delete_category_admin s u cid =
        .error (.conflict (s.events.filter (fun e => e.category_id == cid)).length)) ∧
    ((s.events.filter (fun e => e.category_id == cid)).length = 0 →
      delete_category_admin s u cid =
        .ok { s with categories := s.categories.filter (fun x => x.id != cid) }) := by
  constructor
  · intro hpos
    simp [delete_category_admin, get_current_admin_user, get_current_active_user,
      hact, hadm, hfind, hpos, Bind.bind, Except.bind]
  · intro hzero
    simp [delete_category_admin, get_current_admin_user, get_current_active_user,
      hact, hadm, hfind, hzero, Bind.bind, Except.bind]

/-- C7 witness: with one event referencing category 1 the delete fails
with Conflict naming the count 1; with the event moved to category 2 the
delete of category 1 succeeds. -/
theorem C7_witness :
    delete_category_admin
      { categories := [{ id := 1, name := "music" }],
        events := [{ id := 1, title := "t", author_id := 8, description := none,
                     event_date := 0, category_id := 1 }] }
      { id := 3, email := "a", is_active := true, role := "admin" } 1
      = .error (.conflict 1) ∧
    delete_category_admin
      { categories := [{ id := 1, name := "music" }],
        events := [{ id := 1, title := "t", author_id := 8, description := none,
                     event_date := 0, category_id := 2 }] }
      { id := 3, email := "a", is_active := true, role := "admin" } 1
      = .ok { categories := [],
              events := [{ id := 1, title := "t", author_id := 8, description := none,
                           event_date := 0, category_id := 2 }] } :=
  ⟨(C7_category_delete_guard _ _ _ { id := 1, name := "music" } rfl rfl (by decide)).1 (by decide),
   (C7_category_delete_guard _ _ _ { id := 1, name := "music" } rfl rfl (by decide)).2 (by decide)⟩

/-- C10: the admin subscription route checks neither user id: naming a
nonexistent follower or followee makes the commit-time foreign-key
violation surface as Conflict (HTTP 409), never NotFound, whereas the
user-facing subscribe route answers NotFound for a missing followee. -/
theorem C10_admin_subscription_fk (s : SubStore) (u : User)
    (d : SubscriptionCreateExplicitSchema)
    (hact : u.is_active = true) (hadm : u.role = "admin")
    (hne : d.follower_id ≠ d.followee_id)
    (hmiss : (∀ v ∈ s.users, v.id ≠ d.follower_id) ∨ (∀ v ∈ s.users, v.id ≠ d.followee_id)) :
    create_subscription_by_admin s u d = .error .conflict ∧
    (∀ cu : User, cu.is_active = true → cu.id ≠ d.followee_id →
      (∀ v ∈ s.users, v.id ≠ d.followee_id) →
      subscribe_to_user s cu d.followee_id = .error .notFound) := by
  constructor
  · have hins : subInsertOk s d.follower_id d.followee_id = false := by
      unfold subInsertOk
      rcases hmiss with hm | hm
      · have h1 : (s.users.any (fun v => v.id == d.follower_id)) = false := by
          rw [List.any_eq_false]; intro v hv; simpa using hm v hv
        simp [h1]
      · have h1 : (s.users.any (fun v => v.id == d.followee_id)) = false := by
          rw [List.any_eq_false]; intro v hv; simpa using hm v hv
        simp [h1]
    simp [create_subscription_by_admin, get_current_admin_user, get_current_active_user,
      hact, hadm, hne, hins, Bind.bind, Except.bind]
  · intro cu hcact hcne hm
    have hfind : s.getUser d.followee_id = none := by
      unfold SubStore.getUser
      rw [List.find?_eq_none]; intro v hv; simpa using hm v hv
    simp [subscribe_to_user, get_current_active_user, hcact, hcne, hfind,
      Bind.bind, Except.bind]

/-- C10 witness: with only user 5 in the store, the admin creating a
subscription from 5 to the missing user 9 gets Conflict, while user 5
subscribing to 9 through the user-facing route gets NotFound. -/
theorem C10_witness :
    create_subscription_by_admin
      { users := [{ id := 5, email := "e", is_active := true, role := "user" }], subs := [], nextId := 1 }
      { id := 3, email := "a", is_active := true, role := "admin" }
      { follower_id := 5, followee_id := 9 } = .error .conflict ∧
    (∀ cu : User, cu.is_active = true → cu.id ≠ 9 →
      (∀ v ∈ ({ users := [{ id := 5, email := "e", is_active := true, role := "user" }],
                subs := [], nextId := 1 } : SubStore).users, v.id ≠ 9) →
      subscribe_to_user
        { users := [{ id := 5, email := "e", is_active := true, role := "user" }], subs := [], nextId := 1 }
        cu 9 = .error .notFound) :=
  C10_admin_subscription_fk _ _ _ rfl rfl (by decide) (Or.inr (by decide))

/-- C8: a non-admin active principal updating their own row and supplying
a role or is_active value different from the current one is denied with
Forbidden (and no new store is produced); an active admin issuing the same
update on their own row succeeds and the returned row carries the supplied
role and is_active values. -/
theorem C8_self_update_restriction (s : UserStore) (cu : UserRow)
    (d : UserUpdateAdminSchema) (hact : cu.is_active = true)
    (hmem : s.getUserById cu.id = some cu)
    (hemail : ∀ v ∈ s.users, v.id ≠ cu.id → v.email ≠ cu.email) :
    (cu.role ≠ "admin" →
      ((∃ r, d.role = some r ∧ r ≠ cu.role) ∨
       (∃ b, d.is_active = some b ∧ b ≠ cu.is_active)) →
      update_user_endpoint s cu.principal cu.id d = .error .forbidden) ∧
    (cu.role = "admin" → d.email = none →
      ∃ s' u', update_user_endpoint s cu.principal cu.id d = .ok (s', u') ∧
        (∀ r, d.role = some r → u'.role = r) ∧
        (∀ b, d.is_active = some b → u'.is_active = b)) := by
  have hpact : cu.principal.is_active = true := hact
  constructor
  · intro hna hdiff
    by_cases hr : d.role.any (fun r => r != cu.role)
    · simp [update_user_endpoint, get_current_active_user, hact, UserRow.principal,
        hna, hr, Bind.bind, Except.bind]
    · have hb : d.is_active.any (fun b => !b) = true := by
        rcases hdiff with ⟨r, hr1, hr2⟩ | ⟨b, hb1, hb2⟩
        · exact absurd (by simp [Option.any, hr1, hr2] : d.role.any (fun r => r != cu.role) = true) hr
        · have hbf : b = false := by rw [hact] at hb2; cases b <;> simp_all
          simp [Option.any, hb1, hbf]
      simp [update_user_endpoint, get_current_active_user, hact, UserRow.principal,
        hna, hr, hb, Bind.bind, Except.bind]
  · intro hadm hemnone
    have hupd : (update_existing_user cu d).email = cu.email := by
      simp [update_existing_user, hemnone]
    have hcommit : (s.users.any (fun v => v.id != cu.id && v.email == (update_existing_user cu d).email)) = false := by
      rw [List.any_eq_false]
      intro v hv
      rw [hupd]
      simp only [Bool.and_eq_true, bne_iff_ne, beq_iff_eq, not_and, ne_eq]
      intro hne
      exact hemail v hv hne
    refine ⟨{ users := s.users.map (fun v => if v.id == cu.id then update_existing_user cu d else v) },
      update_existing_user cu d, ?_, ?_, ?_⟩
    · simp [update_user_endpoint, get_current_active_user, hact, UserRow.principal,
        hadm, hemnone, truthyStr, hmem, hcommit, Bind.bind, Except.bind]
    · intro r hr; simp [update_existing_user, hr]
    · intro b hb; simp [update_existing_user, hb]

/-- C8 witness: user 1 promoting themselves to admin is denied Forbidden;
admin 2 setting their own role to organizer succeeds with the new role
stored. -/
theorem C8_witness :
    update_user_endpoint
      { users := [{ id := 1, email := "a", name := none, bio := none, is_active := true, role := "user" },
                  { id := 2, email := "b", name := none, bio := none, is_active := true, role := "admin" }] }
      ({ id := 1, email := "a", name := none, bio := none, is_active := true, role := "user" } : UserRow).principal 1
      { email := none, name := none, bio := none, is_active := none, role := some "admin" }
      = .error .forbidden ∧
    (∃ s' u',
      update_user_endpoint
        { users := [{ id := 1, email := "a", name := none, bio := none, is_active := true, role := "user" },
                    { id := 2, email := "b", name := none, bio := none, is_active := true, role := "admin" }] }
        ({ id := 2, email := "b", name := none, bio := none, is_active := true, role := "admin" } : UserRow).principal 2
        { email := none, name := none, bio := none, is_active := none, role := some "organizer" }
        = .ok (s', u') ∧ u'.role = "organizer") :=
  ⟨(C8_self_update_restriction
      { users := [{ id := 1, email := "a", name := none, bio := none, is_active := true, role := "user" },
                  { id := 2, email := "b", name := none, bio := none, is_active := true, role := "admin" }] }
      { id := 1, email := "a", name := none, bio := none, is_active := true, role := "user" }
      { email := none, name := none, bio := none, is_active := none, role := some "admin" }
      rfl (by decide) (by decide)).1 (by decide)
     (Or.inl ⟨"admin", rfl, by decide⟩),
   by
     obtain ⟨s', u', h1, h2, _⟩ :=
       (C8_self_update_restriction
         { users := [{ id := 1, email := "a", name := none, bio := none, is_active := true, role := "user" },
                     { id := 2, email := "b", name := none, bio := none, is_active := true, role := "admin" }] }
         { id := 2, email := "b", name := none, bio := none, is_active := true, role := "admin" }
         { email := none, name := none, bio := none, is_active := none, role := some "organizer" }
         rfl (by decide) (by decide)).2 rfl rfl
     exact ⟨s', u', h1, h2 _ rfl⟩⟩

/-- A find? is the head of the corresponding filter. -/
theorem find?_eq_head?_filter {α : Type} (q : α → Bool) (l : List α) :
    l.find? q = (l.filter q).head? := by
  induction l with
  | nil => rfl
  | cons a t ih =>
    cases h : q a
    · rw [List.find?_cons_of_neg _ (by simp [h]), List.filter_cons_of_neg (by simp [h]), ih]
    · rw [List.find?_cons_of_pos _ h, List.filter_cons_of_pos h, List.head?_cons]

/-- Filtering commutes with a map that preserves the predicate pointwise. -/
theorem filter_map_comm {α : Type} {f : α → α} {q : α → Bool} {l : List α}
    (h : ∀ a ∈ l, q (f a) = q a) : (l.map f).filter q = (l.filter q).map f := by
  induction l with
  | nil => rfl
  | cons a t ih =>
    have ha := h a (List.mem_cons_self a t)
    have ht := ih (fun x hx => h x (List.mem_cons_of_mem _ hx))
    cases hq : q a
    · rw [List.map_cons, List.filter_cons_of_neg (by rw [ha, hq]; simp),
        List.filter_cons_of_neg (by rw [hq]; simp), ht]
    · rw [List.map_cons, List.filter_cons_of_pos (by rw [ha, hq]),
        List.filter_cons_of_pos (by rw [hq]), List.map_cons, ht]

/-- A list of length at most one whose head is a is exactly the
singleton a. -/
theorem length_le_one_head?_eq {α : Type} {l : List α} {a : α}
    (hlen : l.length ≤ 1) (h : l.head? = some a) : l = [a] := by
  cases l with
  | nil => simp at h
  | cons b t =>
    cases t with
    | nil => simp at h; rw [h]
    | cons c u => simp at hlen

/-- Behaviour of the shared create-or-update participation body on a store
satisfying the database invariants (unique ids below the autoincrement
counter, at most one row per (user, event) key): it succeeds, the store
afterwards has exactly one row for the key and it carries the requested
status, invariants persist, and a row was added exactly when the key was
absent. -/
theorem upsertParticipation_spec (s : PartStore) (uid eid : Nat) (st : Status_Variation)
    (huser : uid ∈ s.users) (hev : eid ∈ s.events)
    (hids : (s.parts.map (·.id)).Nodup)
    (hlt : ∀ p ∈ s.parts, p.id < s.nextId)
    (hkey : (s.parts.filter (fun p => p.user_id == uid && p.event_id == eid)).length ≤ 1) :
    ∃ s' p',
      upsertParticipation s uid eid st = .ok (s', p') ∧
      s'.parts.filter (fun p => p.user_id == uid && p.event_id == eid) = [p'] ∧
      p'.status = st ∧
      (s'.parts.map (·.id)).Nodup ∧
      (∀ p ∈ s'.parts, p.id < s'.nextId) ∧
      s'.users = s.users ∧ s'.events = s.events ∧
      ((s.parts.filter (fun p => p.user_id == uid && p.event_id == eid)) ≠ [] →
        s'.parts.length = s.parts.length) ∧
      ((s.parts.filter (fun p => p.user_id == uid && p.event_id == eid)) = [] →
        s'.parts.length = s.parts.length + 1) := by
  cases hf : s.parts.find? (fun p => p.user_id == uid && p.event_id == eid) with
  | some p0 =>
    have hKp0 : (p0.user_id == uid && p0.event_id == eid) = true := by
      have h := List.find?_some hf
      simpa using h
    have hmem : p0 ∈ s.parts := List.mem_of_find?_eq_some hf
    have hfilter : s.parts.filter (fun p => p.user_id == uid && p.event_id == eid) = [p0] := by
      apply length_le_one_head?_eq hkey
      rw [← find?_eq_head?_filter]; exact hf
    have hptw : ∀ p ∈ s.parts,
        ((if p.id == p0.id then { p0 with status := st } else p).user_id == uid &&
         (if p.id == p0.id then { p0 with status := st } else p).event_id == eid)
          = (p.user_id == uid && p.event_id == eid) := by
      intro p hp
      by_cases hid : (p.id == p0.id) = true
      · have hpe : p = p0 :=
          List.inj_on_of_nodup_map hids hp hmem (by simpa using hid)
        rw [if_pos hid, hpe]
      · rw [if_neg hid]
    have hidtw : ∀ p ∈ s.parts,
        (if p.id == p0.id then { p0 with status := st } else p).id = p.id := by
      intro p hp
      by_cases hid : (p.id == p0.id) = true
      · have hpe := beq_iff_eq.mp hid
        rw [if_pos hid]
        exact hpe.symm
      · rw [if_neg hid]
    refine ⟨{ s with parts := s.parts.map (fun p =>
        if p.id == p0.id then { p0 with status := st } else p) },
      { p0 with status := st }, ?_, ?_, rfl, ?_, ?_, rfl, rfl, ?_, ?_⟩
    · unfold upsertParticipation
      rw [hf]
    · show (s.parts.map (fun p => if p.id == p0.id then { p0 with status := st } else p)).filter
          (fun p => p.user_id == uid && p.event_id == eid) = [{ p0 with status := st }]
      rw [filter_map_comm hptw, hfilter, List.map_cons, List.map_nil, if_pos (by simp)]
    · show ((s.parts.map (fun p =>
          if p.id == p0.id then { p0 with status := st } else p)).map (·.id)).Nodup
      have h : (s.parts.map (fun p => if p.id == p0.id then { p0 with status := st } else p)).map (·.id)
          = s.parts.map (·.id) := by
        rw [List.map_map]
        exact List.map_congr_left hidtw
      rw [h]
      exact hids
    · intro p hp
      obtain ⟨q, hq, hqe⟩ := List.mem_map.mp hp
      show p.id < s.nextId
      rw [← hqe, hidtw q hq]
      exact hlt q hq
    · intro _
      simp
    · intro hnil
      rw [hfilter] at hnil
      exact absurd hnil (by simp)
  | none =>
    have hfilter : s.parts.filter (fun p => p.user_id == uid && p.event_id == eid) = [] := by
      have h := find?_eq_head?_filter (fun p => p.user_id == uid && p.event_id == eid) s.parts
      rw [hf] at h
      cases hc : s.parts.filter (fun p => p.user_id == uid && p.event_id == eid) with
      | nil => rfl
      | cons a t => rw [hc] at h; simp at h
    have hnone := List.find?_eq_none.mp hf
    have hany : (s.parts.any (fun p => p.user_id == uid && p.event_id == eid)) = false := by
      rw [List.any_eq_false]
      intro p hp
      exact hnone p hp
    have huany : (s.users.any (· == uid)) = true := List.any_eq_true.mpr ⟨uid, huser, by simp⟩
    have heany : (s.events.any (· == eid)) = true := List.any_eq_true.mpr ⟨eid, hev, by simp⟩
    refine ⟨{ s with
        parts := s.parts ++ [{ id := s.nextId, user_id := uid, event_id := eid, status := st }],
        nextId := s.nextId + 1 },
      { id := s.nextId, user_id := uid, event_id := eid, status := st }, ?_, ?_, rfl,
      ?_, ?_, rfl, rfl, ?_, ?_⟩
    · unfold upsertParticipation
      rw [hf]
      simp only [huany, heany, hany, Bool.not_false, Bool.and_true, Bool.true_and, if_pos]
    · show (s.parts ++ _).filter _ = _
      rw [List.filter_append, hfilter, List.nil_append, List.filter_cons_of_pos (by simp)]
      rfl
    · show ((s.parts ++ _).map (·.id)).Nodup
      rw [List.map_append]
      rw [List.nodup_append]
      refine ⟨hids, by simp, ?_⟩
      intro a ha hb
      simp at hb
      obtain ⟨q, hq, hqe⟩ := List.mem_map.mp ha
      have := hlt q hq
      omega
    · intro p hp
      show p.id < s.nextId + 1
      rcases List.mem_append.mp hp with h | h
      · have := hlt p h; omega
      · simp only [List.mem_singleton] at h
        rw [h]; exact Nat.lt_succ_self _
    · intro hne
      exact absurd hfilter hne
    · intro _
      simp

/-- C2: on a store satisfying the database invariants, calling the
participation upsert twice for the same (user, event) pair with two
statuses succeeds both times and leaves exactly one row for the pair,
carrying the second status; a row is added only when the pair was absent
before the first call (otherwise the row count is unchanged: the row is
mutated in place). -/
theorem C2_upsert_twice (s : PartStore) (u : User) (eid : Nat)
    (st1 st2 : Status_Variation) (hact : u.is_active = true)
    (huser : u.id ∈ s.users) (hev : eid ∈ s.events)
    (hids : (s.parts.map (·.id)).Nodup)
    (hlt : ∀ p ∈ s.parts, p.id < s.nextId)
    (hkey : (s.parts.filter (fun p => p.user_id == u.id && p.event_id == eid)).length ≤ 1)
    (hne : st1 ≠ st2) :
    ∃ s1 p1 s2 p2,
      set_my_participation_status s u eid st1 = .ok (s1, p1) ∧
      set_my_participation_status s1 u eid st2 = .ok (s2, p2) ∧
      (s2.parts.filter (fun p => p.user_id == u.id && p.event_id == eid)).map (·.status)
        = [st2] ∧
      (s.parts.filter (fun p => p.user_id == u.id && p.event_id == eid) ≠ [] →
        s2.parts.length = s.parts.length) ∧
      (s.parts.filter (fun p => p.user_id == u.id && p.event_id == eid) = [] →
        s2.parts.length = s.parts.length + 1) := by
  obtain ⟨s1, p1, h1ok, h1f, h1st, h1ids, h1lt, h1us, h1ev, h1len1, h1len2⟩ :=
    upsertParticipation_spec s u.id eid st1 huser hev hids hlt hkey
  obtain ⟨s2, p2, h2ok, h2f, h2st, h2ids, h2lt, h2us, h2ev, h2len1, h2len2⟩ :=
    upsertParticipation_spec s1 u.id eid st2 (h1us ▸ huser) (h1ev ▸ hev) h1ids h1lt
      (by rw [h1f]; simp)
  have hevany : (s.events.any (· == eid)) = true := List.any_eq_true.mpr ⟨eid, hev, by simp⟩
  have hevany1 : (s1.events.any (· == eid)) = true := by rw [h1ev]; exact hevany
  refine ⟨s1, p1, s2, p2, ?_, ?_, ?_, ?_, ?_⟩
  · simp [set_my_participation_status, get_current_active_user, hact, hevany,
      Bind.bind, Except.bind, h1ok]
  · simp [set_my_participation_status, get_current_active_user, hact, hevany1,
      Bind.bind, Except.bind, h2ok]
  · rw [h2f, List.map_cons, List.map_nil, h2st]
  · intro hnonempty
    rw [h2len1 (by rw [h1f]; simp), h1len1 hnonempty]
  · intro hempty
    rw [h2len1 (by rw [h1f]; simp), h1len2 hempty]

/-- C2 witness: user 5 setting status going then interested for event 2
on an initially empty store ends with one row whose status is
interested. -/
theorem C2_witness :
    ∃ s1 p1 s2 p2,
      set_my_participation_status
        { users := [5], events := [2], parts := [], nextId := 1 }
        { id := 5, email := "e", is_active := true, role := "user" } 2 .going = .ok (s1, p1) ∧
      set_my_participation_status s1
        { id := 5, email := "e", is_active := true, role := "user" } 2 .interested = .ok (s2, p2) ∧
      (s2.parts.filter (fun p => p.user_id == 5 && p.event_id == 2)).map (·.status)
        = [.interested] ∧
      (([] : List Participation).filter (fun p => p.user_id == 5 && p.event_id == 2) ≠ [] →
        s2.parts.length = 0) ∧
      (([] : List Participation).filter (fun p => p.user_id == 5 && p.event_id == 2) = [] →
        s2.parts.length = 0 + 1) :=
  C2_upsert_twice { users := [5], events := [2], parts := [], nextId := 1 }
    { id := 5, email := "e", is_active := true, role := "user" } 2 .going .interested
    rfl (by decide) (by decide) (by decide) (by decide) (by decide) (by decide)

/-- A find? commutes with a map that preserves the predicate pointwise. -/
theorem find?_map_comm {α : Type} {f : α → α} {q : α → Bool} {l : List α}
    (h : ∀ a ∈ l, q (f a) = q a) : (l.map f).find? q = (l.find? q).map f := by
  induction l with
  | nil => rfl
  | cons a t ih =>
    have ha := h a (List.mem_cons_self a t)
    have ht := ih (fun x hx => h x (List.mem_cons_of_mem _ hx))
    cases hq : q a
    · rw [List.map_cons, List.find?_cons_of_neg _ (by rw [ha, hq]; simp),
        List.find?_cons_of_neg _ (by rw [hq]; simp), ht]
    · rw [List.map_cons, List.find?_cons_of_pos _ (by rw [ha, hq]),
        List.find?_cons_of_pos _ hq]
      rfl

/-- A successful find? on the left list survives an append. -/
theorem find?_append_left {α : Type} {q : α → Bool} {l1 l2 : List α} {a : α}
    (h : l1.find? q = some a) : (l1 ++ l2).find? q = some a := by
  induction l1 with
  | nil => simp at h
  | cons b t ih =>
    cases hq : q b
    · rw [List.find?_cons_of_neg _ (by simp [hq])] at h
      rw [List.cons_append, List.find?_cons_of_neg _ (by simp [hq])]
      exact ih h
    · rw [List.find?_cons_of_pos _ hq] at h
      rw [List.cons_append, List.find?_cons_of_pos _ hq]
      exact h

/-- C3: a reply to an existing parent of depth at least 4 fails with
InvalidRequest (HTTP 400) and inserts nothing; whenever a reply to an
existing parent succeeds, the new comment depth is the parent depth plus
one and the parent row in the new store carries reply_count incremented by
one (same transaction); consequently the concrete 5-level chain of depths
0,1,2,3,4 can be created while the 6th level is rejected with HTTP 400. -/
theorem C3_reply_depth :
    (∀ (s : CommentStore) (u : User) (d : CommentCreateData) (p : Nat) (parent : Comment),
      u.is_active = true → d.event_id ∈ s.events →
      d.parent_comment_id = some p → p ≠ 0 →
      findComment s.comments p = some parent → parent.depth ≥ 4 →
      create_comment_or_reply s u d = .error .badRequest) ∧
    (∀ (s s' : CommentStore) (u : User) (d : CommentCreateData) (p : Nat)
        (parent c : Comment),
      d.parent_comment_id = some p → p ≠ 0 →
      findComment s.comments p = some parent →
      create_comment_or_reply s u d = .ok (s', c) →
      c.depth = parent.depth + 1 ∧
      findComment s'.comments p = some { parent with reply_count := parent.reply_count + 1 }) ∧
    ((chainState 0).toOption.map (fun x => x.2.depth) = some 0 ∧
     (chainState 1).toOption.map (fun x => x.2.depth) = some 1 ∧
     (chainState 2).toOption.map (fun x => x.2.depth) = some 2 ∧
     (chainState 3).toOption.map (fun x => x.2.depth) = some 3 ∧
     (chainState 4).toOption.map (fun x => x.2.depth) = some 4 ∧
     chainState 5 = .error .badRequest) := by
  refine ⟨?_, ?_, by decide, by decide, by decide, by decide, by decide, by rfl⟩
  · intro s u d p parent hact hev hpc hp0 hfind hdepth
    have hevany : (s.events.any (· == d.event_id)) = true :=
      List.any_eq_true.mpr ⟨d.event_id, hev, by simp⟩
    by_cases hsame : parent.event_id = d.event_id
    · simp [create_comment_or_reply, createCommentCore, createWithParent,
        get_current_active_user, hact, hevany, hpc, hp0, hfind, hsame, hdepth,
        Bind.bind, Except.bind]
    · simp [create_comment_or_reply, createCommentCore, createWithParent,
        get_current_active_user, hact, hevany, hpc, hp0, hfind, hsame,
        Bind.bind, Except.bind]
  · intro s s' u d p parent c hpc hp0 hfind hok
    unfold create_comment_or_reply at hok
    cases hg : get_current_active_user u with
    | error e => rw [hg] at hok; exact absurd hok (by simp [Bind.bind, Except.bind])
    | ok v =>
      rw [hg] at hok
      simp only [Bind.bind, Except.bind] at hok
      unfold createCommentCore at hok
      rw [hpc] at hok
      split at hok
      · exact absurd hok (by simp)
      · split at hok
        next p1 heqp =>
          have hp1 : p1 = p := (Option.some.inj heqp).symm
          rw [hp1] at hok
          unfold createWithParent at hok
          rw [if_pos hp0] at hok
          split at hok
          next heqf =>
            rw [hfind] at heqf
            exact absurd heqf (by simp)
          next parent1 heqf =>
            rw [hfind] at heqf
            have hpar : parent1 = parent := (Option.some.inj heqf).symm
            rw [hpar] at hok
            split at hok
            · exact absurd hok (by simp)
            · split at hok
              · exact absurd hok (by simp)
              · simp only [Except.ok.injEq, Prod.mk.injEq] at hok
                obtain ⟨hs', hc⟩ := hok
                constructor
                · rw [← hc]
                · have hpid : (parent.id == p) = true := by
                    have h := List.find?_some hfind
                    simpa using h
                  have hptw : ∀ a : Comment,
                      ((if a.id == p then { a with reply_count := a.reply_count + 1 } else a).id == p)
                        = (a.id == p) := by
                    intro a
                    by_cases hid : (a.id == p) = true
                    · rw [if_pos hid]
                    · rw [if_neg hid]
                  have hmap : (s.comments.map (fun a =>
                        if a.id == p then { a with reply_count := a.reply_count + 1 } else a)).find?
                          (fun a => a.id == p)
                      = some { parent with reply_count := parent.reply_count + 1 } := by
                    rw [find?_map_comm (fun a _ => hptw a)]
                    unfold findComment at hfind
                    rw [hfind, Option.map_some', if_pos hpid]
                  rw [← hs']
                  exact find?_append_left hmap
        next heqp => exact absurd heqp (by simp)

/-- C3 witness: the rejection conjunct applied at the concrete store
produced by the 5-level chain, whose last comment has depth 4. -/
theorem C3_witness :
    create_comment_or_reply
      { events := [1],
        comments :=
          [{ id := 1, event_id := 1, author_id := 10, text := "t",
             parent_comment_id := none, depth := 0, reply_count := 1 },
           { id := 2, event_id := 1, author_id := 10, text := "t",
             parent_comment_id := some 1, depth := 1, reply_count := 1 },
           { id := 3, event_id := 1, author_id := 10, text := "t",
             parent_comment_id := some 2, depth := 2, reply_count := 1 },
           { id := 4, event_id := 1, author_id := 10, text := "t",
             parent_comment_id := some 3, depth := 3, reply_count := 1 },
           { id := 5, event_id := 1, author_id := 10, text := "t",
             parent_comment_id := some 4, depth := 4, reply_count := 0 }],
        nextId := 6 }
      { id := 10, email := "u", is_active := true, role := "user" }
      { text := "t", event_id := 1, parent_comment_id := some 5 }
      = .error .badRequest :=
  C3_reply_depth.1 _ _ _ 5
    { id := 5, event_id := 1, author_id := 10, text := "t",
      parent_comment_id := some 4, depth := 4, reply_count := 0 }
    rfl (by decide) rfl (by decide) (by decide) (by decide)

/-- On a table with unique ids, looking up the id of a member returns
that member. -/
theorem findComment_eq_of_mem_nodup {cs : List Comment}
    (hnd : (cs.map (·.id)).Nodup) {c : Comment} (hc : c ∈ cs) :
    findComment cs c.id = some c := by
  induction cs with
  | nil => cases hc
  | cons a t ih =>
    rw [List.map_cons, List.nodup_cons] at hnd
    rcases List.mem_cons.mp hc with rfl | hmem
    · unfold findComment
      rw [List.find?_cons_of_pos _ (by simp)]
    · have hane : (a.id == c.id) = false := by
        refine beq_eq_false_iff_ne.mpr ?_
        intro he
        exact hnd.1 (he ▸ List.mem_map_of_mem _ hmem)
      unfold findComment
      rw [List.find?_cons_of_neg _ (by simp [hane])]
      exact ih hnd.2 hmem

/-- A successful comment lookup returns a member carrying the id. -/
theorem findComment_some {cs : List Comment} {i : Nat} {c : Comment}
    (h : findComment cs i = some c) : c ∈ cs ∧ c.id = i := by
  refine ⟨List.mem_of_find?_eq_some h, ?_⟩
  have := List.find?_some h
  simpa using this

/-- A comment is in its own subtree. -/
theorem inSubtree_self (cs : List Comment) (root : Nat) :
    inSubtree cs root root = true := by
  rw [inSubtree]
  simp

/-- Unfolding of subtree membership at a looked-up comment whose parent
link exists and decreases. -/
theorem inSubtree_step {cs : List Comment} {root i q : Nat} {c : Comment}
    (hfind : findComment cs i = some c) (hne : i ≠ root)
    (hpq : c.parent_comment_id = some q) (hlt : q < i) :
    inSubtree cs root i = inSubtree cs root q := by
  rw [inSubtree]
  simp [hne, hfind, hpq, hlt]

/-- A looked-up comment without parent is in no subtree but its own. -/
theorem inSubtree_root_only {cs : List Comment} {root i : Nat} {c : Comment}
    (hfind : findComment cs i = some c) (hne : i ≠ root)
    (hpq : c.parent_comment_id = none) :
    inSubtree cs root i = false := by
  rw [inSubtree]
  simp [hne, hfind, hpq]

/-- Ids in the subtree rooted at root are at least root, because parent
links strictly decrease. -/
theorem le_of_inSubtree {cs : List Comment} {root : Nat} :
    ∀ i, inSubtree cs root i = true → root ≤ i := by
  intro i
  induction i using Nat.strong_induction_on with
  | _ i ih =>
    intro h
    by_cases hne : i = root
    · omega
    · rw [inSubtree] at h
      rw [if_neg hne] at h
      cases hf : findComment cs i with
      | none => rw [hf] at h; simp at h
      | some c =>
        simp only [hf] at h
        cases hp : c.parent_comment_id with
        | none => rw [hp] at h; simp at h
        | some q =>
          simp only [hp] at h
          by_cases hlt : q < i
          · rw [dif_pos hlt] at h
            have := ih q hlt h
            omega
          · rw [dif_neg hlt] at h
            simp at h

/-- Subtree membership of a member with a parent link, as a disjunction:
either the member is the root itself or its parent is in the subtree. -/
theorem inSubtree_mem_eq {cs : List Comment} {root : Nat}
    (hnd : (cs.map (·.id)).Nodup) {x : Comment} (hx : x ∈ cs) {q : Nat}
    (hpq : x.parent_comment_id = some q) (hlt : q < x.id) :
    inSubtree cs root x.id = ((x.id == root) || inSubtree cs root q) := by
  by_cases hr : x.id = root
  · rw [hr, inSubtree_self]
    simp
  · rw [inSubtree_step (findComment_eq_of_mem_nodup hnd hx) hr hpq hlt]
    have : (x.id == root) = false := by simpa using hr
    rw [this, Bool.false_or]

/-- Counting members that satisfy A but are not a distinguished member c0
removes exactly one hit when A holds at c0, on a table with unique ids. -/
theorem length_filter_and_not_id {cs : List Comment}
    (hnd : (cs.map (·.id)).Nodup) {c0 : Comment} (hc0 : c0 ∈ cs)
    (A : Comment → Bool) :
    (cs.filter (fun x => A x && !(x.id == c0.id))).length
      = (cs.filter A).length - (if A c0 then 1 else 0) := by
  induction cs with
  | nil => cases hc0
  | cons a t ih =>
    rw [List.map_cons, List.nodup_cons] at hnd
    rcases List.mem_cons.mp hc0 with rfl | hmem
    · have ht : t.filter (fun x => A x && !(x.id == c0.id)) = t.filter A := by
        apply List.filter_congr
        intro x hx
        have hne : (x.id == c0.id) = false := by
          refine beq_eq_false_iff_ne.mpr ?_
          intro he
          exact hnd.1 (he ▸ List.mem_map_of_mem _ hx)
        rw [hne]
        simp
      rw [List.filter_cons, List.filter_cons, ht]
      cases hA : A c0 <;> simp [hA]
    · have hane : (a.id == c0.id) = false := by
        refine beq_eq_false_iff_ne.mpr ?_
        intro he
        exact hnd.1 (he ▸ List.mem_map_of_mem _ hmem)
      have hrec := ih hnd.2 hmem
      rw [List.filter_cons, List.filter_cons]
      cases hA : A a
      · simp [hA, hrec]
      · have hle : (if A c0 = true then 1 else 0) ≤ (t.filter A).length := by
          cases hAc : A c0
          · simp
          · have hm : c0 ∈ t.filter A := List.mem_filter.mpr ⟨hmem, hAc⟩
            have := List.length_pos_of_mem hm
            simpa using this
        simp only [hA, hane, Bool.true_and, Bool.not_false, Bool.and_true]
        cases hAc : A c0 <;> simp_all

/-- Child counting ignores fields other than parent_comment_id, so it is
stable under maps that preserve the parent link. -/
theorem countChildren_map_eq {cs : List Comment} {f : Comment → Comment}
    (h : ∀ x ∈ cs, (f x).parent_comment_id = x.parent_comment_id) (i : Nat) :
    countChildren (cs.map f) i = countChildren cs i := by
  unfold countChildren
  rw [filter_map_comm (fun a ha => by rw [h a ha])]
  rw [List.length_map]

/-- Child counting distributes over append. -/
theorem countChildren_append (l1 l2 : List Comment) (i : Nat) :
    countChildren (l1 ++ l2) i = countChildren l1 i + countChildren l2 i := by
  unfold countChildren
  rw [List.filter_append, List.length_append]

/-- A table all of whose parent links avoid i has no children of i. -/
theorem countChildren_eq_zero {cs : List Comment} {i : Nat}
    (h : ∀ x ∈ cs, x.parent_comment_id ≠ some i) :
    countChildren cs i = 0 := by
  unfold countChildren
  rw [List.length_eq_zero]
  rw [List.filter_eq_nil_iff]
  intro x hx
  simp [h x hx]

/-- Members counted as children: the count is positive when a child is
exhibited. -/
theorem countChildren_pos {cs : List Comment} {i : Nat} {x : Comment}
    (hx : x ∈ cs) (hp : x.parent_comment_id = some i) :
    1 ≤ countChildren cs i := by
  unfold countChildren
  have hm : x ∈ cs.filter (fun y => y.parent_comment_id == some i) :=
    List.mem_filter.mpr ⟨hx, by simp [hp]⟩
  have := List.length_pos_of_mem hm
  omega

/-- Child counting over a one-row table. -/
theorem countChildren_singleton (x : Comment) (i : Nat) :
    countChildren [x] i = if x.parent_comment_id == some i then 1 else 0 := by
  unfold countChildren
  rw [List.filter_singleton]
  cases h : (x.parent_comment_id == some i) <;> simp [h]

/-- Under the invariants no stored row can have the autoincrement counter
as parent. -/
theorem countChildren_nextId_zero {s : CommentStore} (inv : CommentStoreInv s) :
    countChildren s.comments s.nextId = 0 := by
  apply countChildren_eq_zero
  intro x hx hq
  have h1 := inv.parentLt x hx _ hq
  have h2 := inv.idLt x hx
  omega

/-- Counting the surviving children of a surviving comment y when the
subtree of c0 is removed: exactly the original children minus c0 itself
when c0 was a child of y. -/
theorem countChildren_survivors {s : CommentStore} (inv : CommentStoreInv s)
    {c0 : Comment} (hc0 : c0 ∈ s.comments) {y : Comment} (hy : y ∈ s.comments)
    (hys : inSubtree s.comments c0.id y.id = false) :
    countChildren (s.comments.filter (fun x => !(inSubtree s.comments c0.id x.id))) y.id
      = countChildren s.comments y.id
        - (if c0.parent_comment_id == some y.id then 1 else 0) := by
  unfold countChildren
  rw [List.filter_filter]
  have hcong : s.comments.filter
        (fun a => (a.parent_comment_id == some y.id) && !(inSubtree s.comments c0.id a.id))
      = s.comments.filter
        (fun a => (a.parent_comment_id == some y.id) && !(a.id == c0.id)) := by
    apply List.filter_congr
    intro x hx
    cases hpx : (x.parent_comment_id == some y.id)
    · simp
    · have hpeq : x.parent_comment_id = some y.id := by simpa using hpx
      have hlt : y.id < x.id := inv.parentLt x hx _ hpeq
      have hstep : inSubtree s.comments c0.id x.id
          = ((x.id == c0.id) || inSubtree s.comments c0.id y.id) :=
        inSubtree_mem_eq inv.idNodup hx hpeq hlt
      rw [hys, Bool.or_false] at hstep
      rw [hstep]
  rw [hcong]
  exact length_filter_and_not_id inv.idNodup hc0 (fun x => x.parent_comment_id == some y.id)

/-- Sublists of the survivors keep unique ids. -/
theorem survivors_idNodup {s : CommentStore} (inv : CommentStoreInv s) (root : Nat) :
    ((s.comments.filter (fun x => !(inSubtree s.comments root x.id))).map (·.id)).Nodup :=
  List.Nodup.sublist (List.Sublist.map _ (List.filter_sublist _)) inv.idNodup

/-- A surviving comment with a parent link has a surviving parent row:
removal of a whole subtree cannot orphan a row outside it. -/
theorem survivors_parent_survives {s : CommentStore} (inv : CommentStoreInv s)
    {root : Nat} {y : Comment} (hy : y ∈ s.comments)
    (hys : inSubtree s.comments root y.id = false) {q : Nat}
    (hq : y.parent_comment_id = some q) :
    inSubtree s.comments root q = false := by
  have hlt : q < y.id := inv.parentLt y hy _ hq
  have hstep : inSubtree s.comments root y.id
      = ((y.id == root) || inSubtree s.comments root q) :=
    inSubtree_mem_eq inv.idNodup hy hq hlt
  rw [hys] at hstep
  cases hqa : inSubtree s.comments root q
  · rfl
  · rw [hqa] at hstep
    simp at hstep

/-- Deleting the subtree of a parentless comment c0 preserves the store
invariants. -/
theorem survivors_inv {s : CommentStore} (inv : CommentStoreInv s) {c0 : Comment}
    (hc0 : c0 ∈ s.comments) (hp0 : c0.parent_comment_id = none) :
    CommentStoreInv { s with comments := s.comments.filter (fun x =>
      !(inSubtree s.comments c0.id x.id)) } := by
  constructor
  · exact survivors_idNodup inv c0.id
  · intro c hc
    exact inv.idPos c (List.mem_filter.mp hc).1
  · intro c hc
    exact inv.idLt c (List.mem_filter.mp hc).1
  · exact inv.nextPos
  · intro c hc q hq
    exact inv.parentLt c (List.mem_filter.mp hc).1 q hq
  · intro c hc q hq
    obtain ⟨hcm, hcs⟩ := List.mem_filter.mp hc
    have hcs' : inSubtree s.comments c0.id c.id = false := by simpa using hcs
    obtain ⟨w, hw, hwid⟩ := inv.parentMem c hcm q hq
    refine ⟨w, List.mem_filter.mpr ⟨hw, ?_⟩, hwid⟩
    rw [hwid]
    simp [survivors_parent_survives inv hcm hcs' hq]
  · intro y hy
    obtain ⟨hym, hys⟩ := List.mem_filter.mp hy
    have hys' : inSubtree s.comments c0.id y.id = false := by simpa using hys
    rw [countChildren_survivors inv hc0 hym hys']
    rw [hp0]
    rw [if_neg (by simp)]
    rw [Nat.sub_zero]
    exact inv.counts y hym

/-- Deleting the subtree of a comment c0 with parent pid, then clamping
the parent reply_count down by one, preserves the store invariants. -/
theorem survivors_bump_inv {s : CommentStore} (inv : CommentStoreInv s) {c0 : Comment}
    (hc0 : c0 ∈ s.comments) {pid : Nat} (hp0 : c0.parent_comment_id = some pid) :
    CommentStoreInv { s with comments := (s.comments.filter (fun x =>
      !(inSubtree s.comments c0.id x.id))).map (fun y =>
        if y.id == pid then { y with reply_count := max 0 (y.reply_count - 1) }
        else y) } := by
  set g : Comment → Comment :=
    fun y => if y.id == pid then { y with reply_count := max 0 (y.reply_count - 1) } else y
    with hg
  have hgid : ∀ y : Comment, (g y).id = y.id := by
    intro y
    by_cases hid : (y.id == pid) = true
    · rw [hg]
      simp only [if_pos hid]
    · rw [hg]; simp only [if_neg hid]
  have hgparent : ∀ y : Comment, (g y).parent_comment_id = y.parent_comment_id := by
    intro y
    by_cases hid : (y.id == pid) = true
    · rw [hg]; simp only [if_pos hid]
    · rw [hg]; simp only [if_neg hid]
  have hids : ∀ l : List Comment, (l.map g).map (·.id) = l.map (·.id) := by
    intro l
    rw [List.map_map]
    exact List.map_congr_left (fun y _ => hgid y)
  constructor
  · have h := survivors_idNodup inv c0.id
    rw [← hids (s.comments.filter (fun x => !(inSubtree s.comments c0.id x.id)))] at h
    exact h
  · intro c hc
    obtain ⟨y, hy, hye⟩ := List.mem_map.mp hc
    rw [← hye, hgid]
    exact inv.idPos y (List.mem_filter.mp hy).1
  · intro c hc
    obtain ⟨y, hy, hye⟩ := List.mem_map.mp hc
    show c.id < s.nextId
    rw [← hye, hgid]
    exact inv.idLt y (List.mem_filter.mp hy).1
  · exact inv.nextPos
  · intro c hc q hq
    obtain ⟨y, hy, hye⟩ := List.mem_map.mp hc
    rw [← hye, hgid]
    rw [← hye, hgparent] at hq
    exact inv.parentLt y (List.mem_filter.mp hy).1 q hq
  · intro c hc q hq
    obtain ⟨y, hy, hye⟩ := List.mem_map.mp hc
    rw [← hye, hgparent] at hq
    obtain ⟨hym, hys⟩ := List.mem_filter.mp hy
    have hys' : inSubtree s.comments c0.id y.id = false := by simpa using hys
    obtain ⟨w, hw, hwid⟩ := inv.parentMem y hym q hq
    have hwsurv : w ∈ s.comments.filter (fun x => !(inSubtree s.comments c0.id x.id)) := by
      refine List.mem_filter.mpr ⟨hw, ?_⟩
      rw [hwid]
      simp [survivors_parent_survives inv hym hys' hq]
    exact ⟨g w, List.mem_map_of_mem g hwsurv, by rw [hgid]; exact hwid⟩
  · intro c hc
    obtain ⟨y, hy, hye⟩ := List.mem_map.mp hc
    obtain ⟨hym, hys⟩ := List.mem_filter.mp hy
    have hys' : inSubtree s.comments c0.id y.id = false := by simpa using hys
    have hcnt : countChildren ((s.comments.filter
          (fun x => !(inSubtree s.comments c0.id x.id))).map g) c.id
        = countChildren (s.comments.filter
          (fun x => !(inSubtree s.comments c0.id x.id))) c.id := by
      exact countChildren_map_eq (fun x _ => hgparent x) c.id
    show c.reply_count = _
    rw [hcnt, ← hye, hgid]
    rw [countChildren_survivors inv hc0 hym hys']
    by_cases hid : (y.id == pid) = true
    · have hyid : y.id = pid := beq_iff_eq.mp hid
      have hgc : g y = { y with reply_count := max 0 (y.reply_count - 1) } := by
        rw [hg]; simp only [if_pos hid]
      have hA : (c0.parent_comment_id == some y.id) = true := by
        rw [hp0, hyid]; simp
      rw [hA, if_pos rfl]
      have hcpos : 1 ≤ countChildren s.comments pid := countChildren_pos hc0 hp0
      have hyc := inv.counts y hym
      rw [hgc]
      show max 0 (y.reply_count - 1) = _
      rw [hyc, hyid]
      have hcast : ((countChildren s.comments pid - 1 : Nat) : Int)
          = (countChildren s.comments pid : Int) - 1 := by
        omega
      rw [hcast]
      rw [max_eq_right (by omega)]
    · have hgc : g y = y := by rw [hg]; simp only [if_neg hid]
      have hA : (c0.parent_comment_id == some y.id) = false := by
        rw [hp0]
        simp only [beq_eq_false_iff_ne, ne_eq, Option.some.injEq]
        intro he
        exact hid (by simp [he])
      rw [hA, if_neg (by simp)]
      rw [Nat.sub_zero, hgc]
      exact inv.counts y hym

/-- Appending a fresh top-level comment (no parent, reply_count 0) under
the autoincrement id preserves the store invariants. -/
theorem append_top_inv {s : CommentStore} (inv : CommentStoreInv s)
    (eid aid : Nat) (txt : String) :
    CommentStoreInv { s with
      comments := s.comments ++ [mkComment s.nextId eid aid txt none 0],
      nextId := s.nextId + 1 } := by
  constructor
  · show ((s.comments ++ _).map (·.id)).Nodup
    rw [List.map_append, List.nodup_append]
    refine ⟨inv.idNodup, by simp, ?_⟩
    intro a ha hb
    simp [mkComment] at hb
    obtain ⟨q, hq, hqe⟩ := List.mem_map.mp ha
    have := inv.idLt q hq
    omega
  · intro c hc
    rcases List.mem_append.mp hc with h | h
    · exact inv.idPos c h
    · simp at h
      rw [h]
      exact inv.nextPos
  · intro c hc
    show c.id < s.nextId + 1
    rcases List.mem_append.mp hc with h | h
    · have := inv.idLt c h; omega
    · simp at h; rw [h]; simp [mkComment]
  · show 1 ≤ s.nextId + 1
    omega
  · intro c hc q hq
    rcases List.mem_append.mp hc with h | h
    · exact inv.parentLt c h q hq
    · simp at h
      rw [h] at hq
      exact absurd hq (by simp [mkComment])
  · intro c hc q hq
    rcases List.mem_append.mp hc with h | h
    · obtain ⟨w, hw, hwid⟩ := inv.parentMem c h q hq
      exact ⟨w, List.mem_append_left _ hw, hwid⟩
    · simp at h
      rw [h] at hq
      exact absurd hq (by simp [mkComment])
  · intro c hc
    show c.reply_count = (countChildren (s.comments ++ _) c.id : Int)
    rw [countChildren_append]
    rw [countChildren_singleton]
    rw [if_neg (by simp [mkComment])]
    rcases List.mem_append.mp hc with h | h
    · rw [Nat.add_zero]
      exact inv.counts c h
    · simp at h
      rw [h]
      show (0 : Int) = _
      rw [show (mkComment s.nextId eid aid txt none 0).id = s.nextId from rfl]
      rw [countChildren_nextId_zero inv]
      simp

/-- Appending a fresh reply under the autoincrement id while bumping the
parent reply_count preserves the store invariants. -/
theorem append_reply_inv {s : CommentStore} (inv : CommentStoreInv s)
    {p : Nat} {parent : Comment} (hfind : findComment s.comments p = some parent)
    (eid aid : Nat) (txt : String) (dep : Nat) :
    CommentStoreInv { s with
      comments := (s.comments.map (fun c =>
        if c.id == p then { c with reply_count := c.reply_count + 1 } else c))
          ++ [mkComment s.nextId eid aid txt (some p) dep],
      nextId := s.nextId + 1 } := by
  obtain ⟨hpmem, hpid⟩ := findComment_some hfind
  set f : Comment → Comment :=
    fun c => if c.id == p then { c with reply_count := c.reply_count + 1 } else c
    with hf
  have hfid : ∀ y : Comment, (f y).id = y.id := by
    intro y
    by_cases hid : (y.id == p) = true
    · rw [hf]; simp only [if_pos hid]
    · rw [hf]; simp only [if_neg hid]
  have hfparent : ∀ y : Comment, (f y).parent_comment_id = y.parent_comment_id := by
    intro y
    by_cases hid : (y.id == p) = true
    · rw [hf]; simp only [if_pos hid]
    · rw [hf]; simp only [if_neg hid]
  have hids : (s.comments.map f).map (·.id) = s.comments.map (·.id) := by
    rw [List.map_map]
    exact List.map_congr_left (fun y _ => hfid y)
  have hplt : p < s.nextId := hpid ▸ inv.idLt parent hpmem
  constructor
  · show (((s.comments.map f) ++ _).map (·.id)).Nodup
    rw [List.map_append, hids, List.nodup_append]
    refine ⟨inv.idNodup, by simp, ?_⟩
    intro a ha hb
    simp [mkComment] at hb
    obtain ⟨q, hq, hqe⟩ := List.mem_map.mp ha
    have := inv.idLt q hq
    omega
  · intro c hc
    rcases List.mem_append.mp hc with h | h
    · obtain ⟨y, hy, hye⟩ := List.mem_map.mp h
      rw [← hye, hfid]
      exact inv.idPos y hy
    · simp at h
      rw [h]
      exact inv.nextPos
  · intro c hc
    show c.id < s.nextId + 1
    rcases List.mem_append.mp hc with h | h
    · obtain ⟨y, hy, hye⟩ := List.mem_map.mp h
      rw [← hye, hfid]
      have := inv.idLt y hy
      omega
    · simp at h; rw [h]; simp [mkComment]
  · show 1 ≤ s.nextId + 1
    omega
  · intro c hc q hq
    rcases List.mem_append.mp hc with h | h
    · obtain ⟨y, hy, hye⟩ := List.mem_map.mp h
      rw [← hye, hfid]
      rw [← hye, hfparent] at hq
      exact inv.parentLt y hy q hq
    · simp at h
      rw [h] at hq ⊢
      simp only [mkComment, Option.some.injEq] at hq
      show q < s.nextId
      omega
  · intro c hc q hq
    rcases List.mem_append.mp hc with h | h
    · obtain ⟨y, hy, hye⟩ := List.mem_map.mp h
      rw [← hye, hfparent] at hq
      obtain ⟨w, hw, hwid⟩ := inv.parentMem y hy q hq
      exact ⟨f w, List.mem_append_left _ (List.mem_map_of_mem f hw),
        by rw [hfid]; exact hwid⟩
    · simp at h
      rw [h] at hq
      simp only [mkComment, Option.some.injEq] at hq
      exact ⟨f parent, List.mem_append_left _ (List.mem_map_of_mem f hpmem),
        by rw [hfid, hpid, hq]⟩
  · intro c hc
    show c.reply_count = (countChildren ((s.comments.map f) ++ _) c.id : Int)
    rw [countChildren_append]
    rw [countChildren_map_eq (fun x _ => hfparent x)]
    rw [countChildren_singleton]
    rcases List.mem_append.mp hc with h | h
    · obtain ⟨y, hy, hye⟩ := List.mem_map.mp h
      rw [← hye, hfid]
      by_cases hid : (y.id == p) = true
      · have hfc : f y = { y with reply_count := y.reply_count + 1 } := by
          rw [hf]; simp only [if_pos hid]
        have hyid : y.id = p := beq_iff_eq.mp hid
        rw [if_pos (by simp [mkComment, hyid])]
        rw [hfc]
        show y.reply_count + 1 = _
        rw [inv.counts y hy]
        push_cast
        ring
      · have hfc : f y = y := by rw [hf]; simp only [if_neg hid]
        have hyid : p ≠ y.id := fun he => hid (by simp [he])
        rw [if_neg (by simp [mkComment, hyid])]
        rw [hfc, Nat.add_zero]
        exact inv.counts y hy
    · simp at h
      rw [h]
      show (0 : Int) = _
      rw [show (mkComment s.nextId eid aid txt (some p) dep).id = s.nextId from rfl]
      rw [if_neg (by simp [mkComment]; omega)]
      rw [countChildren_nextId_zero inv]
      simp

/-- A successful run of the comment-creation body preserves the store
invariants. -/
theorem createCommentCore_preserves_inv {s : CommentStore} (inv : CommentStoreInv s)
    {aid : Nat} {d : CommentCreateData} {s' : CommentStore} {c : Comment}
    (h : createCommentCore s aid d = .ok (s', c)) : CommentStoreInv s' := by
  unfold createCommentCore at h
  split at h
  · exact absurd h (by simp)
  · split at h
    next p1 heqp =>
      unfold createWithParent at h
      split at h
      · split at h
        next heqf => exact absurd h (by simp)
        next parent1 heqf =>
          split at h
          · exact absurd h (by simp)
          · split at h
            · exact absurd h (by simp)
            · simp only [Except.ok.injEq, Prod.mk.injEq] at h
              obtain ⟨hs', hc⟩ := h
              rw [← hs']
              exact append_reply_inv inv heqf d.event_id aid d.text (parent1.depth + 1)
      · split at h
        next hsome =>
          obtain ⟨w, hw⟩ := Option.isSome_iff_exists.mp hsome
          obtain ⟨hwm, hwid⟩ := findComment_some hw
          have hwpos := inv.idPos w hwm
          next hnz =>
            have : p1 = 0 := by omega
            rw [this] at hwid
            omega
        next _ => exact absurd h (by simp)
    next heqp =>
      simp only [Except.ok.injEq, Prod.mk.injEq] at h
      obtain ⟨hs', hc⟩ := h
      rw [← hs']
      exact append_top_inv inv d.event_id aid d.text

/-- A successful run of the comment-delete route preserves the store
invariants. -/
theorem delete_route_preserves_inv {s : CommentStore} (inv : CommentStoreInv s)
    {u : User} {cid : Nat} {s' : CommentStore}
    (h : delete_own_or_admin_comment s u cid = .ok s') : CommentStoreInv s' := by
  unfold delete_own_or_admin_comment at h
  cases hg : get_current_active_user u with
  | error e => rw [hg] at h; exact absurd h (by simp [Bind.bind, Except.bind])
  | ok v =>
    rw [hg] at h
    simp only [Bind.bind, Except.bind] at h
    cases hf : findComment s.comments cid with
    | none => rw [hf] at h; exact absurd h (by simp)
    | some c0 =>
      simp only [hf] at h
      obtain ⟨hc0m, hc0id⟩ := findComment_some hf
      subst hc0id
      split at h
      · exact absurd h (by simp)
      · simp only [Except.ok.injEq] at h
        cases hp : c0.parent_comment_id with
        | none =>
          simp only [hp] at h
          rw [← h]
          exact survivors_inv inv hc0m hp
        | some pid =>
          simp only [hp] at h
          have hpidnz : pid ≠ 0 := by
            obtain ⟨w, hw, hwid⟩ := inv.parentMem c0 hc0m pid hp
            have := inv.idPos w hw
            omega
          rw [if_pos hpidnz] at h
          rw [← h]
          exact survivors_bump_inv inv hc0m hp

/-- Stripping the active gate off a successful run of the authenticated
comment-creation route. -/
theorem create_route_ok {s s' : CommentStore} {u : User} {d : CommentCreateData}
    {c : Comment} (h : create_comment_or_reply s u d = .ok (s', c)) :
    createCommentCore s u.id d = .ok (s', c) := by
  unfold create_comment_or_reply at h
  cases hg : get_current_active_user u with
  | error e => rw [hg] at h; exact absurd h (by simp [Bind.bind, Except.bind])
  | ok v =>
    rw [hg] at h
    simp only [Bind.bind, Except.bind] at h
    rw [(get_current_active_user_ok hg).1] at h
    exact h

/-- Stripping the admin gate off a successful run of the admin as-author
comment-creation route. -/
theorem create_admin_route_ok {s s' : CommentStore} {u : User} {aid : Nat}
    {d : CommentCreateData} {c : Comment}
    (h : create_comment_or_reply_as_author_by_admin s u aid d = .ok (s', c)) :
    createCommentCore s aid d = .ok (s', c) := by
  unfold create_comment_or_reply_as_author_by_admin at h
  cases hg : get_current_admin_user u with
  | error e => rw [hg] at h; exact absurd h (by simp [Bind.bind, Except.bind])
  | ok v =>
    rw [hg] at h
    simpa [Bind.bind, Except.bind] using h

/-- Every reachable comment store satisfies the database invariants. -/
theorem comment_inv_of_reach {s : CommentStore} (h : CommentReach s) :
    CommentStoreInv s := by
  induction h with
  | init events => constructor <;> simp
  | create u d hr heq ih => exact createCommentCore_preserves_inv ih (create_route_ok heq)
  | createAdmin u aid d hr heq ih =>
    exact createCommentCore_preserves_inv ih (create_admin_route_ok heq)
  | delete u cid hr heq ih => exact delete_route_preserves_inv ih heq

/-- C1: at every reachable comment store, every stored reply_count equals
the number of existing comments whose parent_comment_id is that comment id
— creation with a parent increments the parent count in the same commit as
the insert, deletion decrements the immediate parent count (clamped at 0)
while the cascade removes the whole subtree without further adjustments,
and together these keep the denormalized counter exact. -/
theorem C1_reply_count_invariant (s : CommentStore) (h : CommentReach s) :
    ∀ c ∈ s.comments, c.reply_count = (countChildren s.comments c.id : Int) :=
  (comment_inv_of_reach h).counts

/-- C1 witness: the invariant applied to the concrete reachable store
obtained by posting a top-level comment and one reply: the top comment
stores reply_count 1, equal to its one child. -/
theorem C1_witness :
    ({ id := 1, event_id := 1, author_id := 10, text := "t", parent_comment_id := none,
       depth := 0, reply_count := 1 } : Comment).reply_count
      = (countChildren
          [{ id := 1, event_id := 1, author_id := 10, text := "t", parent_comment_id := none,
             depth := 0, reply_count := 1 },
           { id := 2, event_id := 1, author_id := 10, text := "r", parent_comment_id := some 1,
             depth := 1, reply_count := 0 }] 1 : Int) := by
  have h0 : CommentReach { events := [1], comments := [], nextId := 1 } :=
    CommentReach.init [1]
  have e1 : create_comment_or_reply { events := [1], comments := [], nextId := 1 }
      { id := 10, email := "u", is_active := true, role := "user" }
      { text := "t", event_id := 1, parent_comment_id := none }
      = .ok
        ({ events := [1],
           comments := [{ id := 1, event_id := 1, author_id := 10, text := "t",
                          parent_comment_id := none, depth := 0, reply_count := 0 }],
           nextId := 2 },
         { id := 1, event_id := 1, author_id := 10, text := "t",
           parent_comment_id := none, depth := 0, reply_count := 0 }) := by rfl
  have h1 := CommentReach.create
    { id := 10, email := "u", is_active := true, role := "user" }
    { text := "t", event_id := 1, parent_comment_id := none } h0 e1
  have e2 : create_comment_or_reply
      { events := [1],
        comments := [{ id := 1, event_id := 1, author_id := 10, text := "t",
                       parent_comment_id := none, depth := 0, reply_count := 0 }],
        nextId := 2 }
      { id := 10, email := "u", is_active := true, role := "user" }
      { text := "r", event_id := 1, parent_comment_id := some 1 }
      = .ok
        ({ events := [1],
           comments := [{ id := 1, event_id := 1, author_id := 10, text := "t",
                          parent_comment_id := none, depth := 0, reply_count := 1 },
                        { id := 2, event_id := 1, author_id := 10, text := "r",
                          parent_comment_id := some 1, depth := 1, reply_count := 0 }],
           nextId := 3 },
         { id := 2, event_id := 1, author_id := 10, text := "r",
           parent_comment_id := some 1, depth := 1, reply_count := 0 }) := by rfl
  have h2 := CommentReach.create
    { id := 10, email := "u", is_active := true, role := "user" }
    { text := "r", event_id := 1, parent_comment_id := some 1 } h1 e2
  exact C1_reply_count_invariant _ h2 _ (by decide)

end EventSphere
